import Mathlib

/-
Verification of the image-socket session/protocol control plane.

This file gives a shallow embedding of the server-side session registry
(`ClientModel`, `ImageServerBridge`), the wire-frame receiver
(`ClientSession::onBinaryMessageReceived`), and the consumer-side connection
state machine (`WebSocketImageClient`), and proves properties of the
embedded operations.

Conventions:
  * C++ `int` / `qint64` fields are modelled as `Int`.
  * `QString` is `String`; the empty string is the "no active client" sentinel,
    exactly as in the C++ code.
  * The C++ `indexOfClient` returns `-1` when the id is absent; this is
    modelled as `Option Nat` (`none` for `-1`).
  * Qt model bookkeeping (begin/end insert rows, dataChanged signals) has no
    observable effect on the data and is not modelled; user-visible
    notifications (`eventOccurred` codes, `newFrameReady`) are modelled as an
    append-only event list.
-/

namespace ImageSocket

/-- Mirror of `ClientEntry` (clientmodel.h): one row of the session registry,
with the Measurement Window counters. Field defaults match the C++ member
initializers. -/
structure ClientEntry where
  id : String
  status : String
  aliasName : String := ""   -- C++ field `alias` (the word is reserved in Lean)
  configuredFps : Int := 0
  measuredFps : Int := 0
  lastFrameTsMs : Int := 0
  framesInWindow : Int := 0
  windowStartMs : Int := 0
deriving Repr, DecidableEq

/-- `ClientModel::indexOfClient` (clientmodel.cpp:85-92): index of the first
entry with the given id; the C++ `-1` sentinel is modelled as `none`. -/
def indexOfClient : List ClientEntry → String → Option Nat
  | [], _ => none
  | e :: rest, cid =>
      if e.id = cid then some 0 else (indexOfClient rest cid).map (· + 1)

/-- `ClientModel::addClient` (clientmodel.cpp:56-66): no-op when the id is
already present, otherwise append a fresh entry with the given status. -/
def addClient (cl : List ClientEntry) (cid status : String) : List ClientEntry :=
  if (indexOfClient cl cid).isSome then cl
  else cl ++ [{ id := cid, status := status }]

/-- `ClientModel::removeClient` (clientmodel.cpp:68-76): the C++ removes the
entry at `indexOfClient(id)` (no-op when `-1`), i.e. it drops the first entry
whose id matches. -/
def removeClient : List ClientEntry → String → List ClientEntry
  | [], _ => []
  | e :: rest, cid => if e.id = cid then rest else e :: removeClient rest cid

/-- `ClientModel::setClientStatus` (clientmodel.cpp:94-104): update the status
of the entry at `indexOfClient(id)` (no-op when `-1`; the C++ early-return when
the status is unchanged yields the same list). -/
def setClientStatus : List ClientEntry → String → String → List ClientEntry
  | [], _, _ => []
  | e :: rest, cid, st =>
      if e.id = cid then { e with status := st } :: rest
      else e :: setClientStatus rest cid st

/-- `ClientModel::setClientConfiguredFps` (clientmodel.cpp:118-126): update the
configured-FPS field of the entry at `indexOfClient(id)` (no-op when `-1`). -/
def setClientConfiguredFps : List ClientEntry → String → Int → List ClientEntry
  | [], _, _ => []
  | e :: rest, cid, fps =>
      if e.id = cid then { e with configuredFps := fps } :: rest
      else e :: setClientConfiguredFps rest cid fps

/-- Round-half-away-from-zero on a positive rational `num / den`, as computed
by `std::round((double(frames) * 1000.0) / double(elapsed))` in
`ClientModel::recordFrameReceived`; on the positive operands that occur there
this equals `⌊num / den + 1 / 2⌋`. -/
def roundHalfUp (num den : Int) : Int :=
  (2 * num + den).fdiv (2 * den)

/-- Body of `ClientModel::recordFrameReceived` (clientmodel.cpp:138-172) for
one entry: the Measurement Window step. The C++ substitutes the wall clock for
a zero timestamp, so the effective timestamp reaching this step is nonzero. -/
def recordFrameEntry (e : ClientEntry) (t : Int) : ClientEntry :=
  let e1 := if e.windowStartMs = 0
    then { e with windowStartMs := t, framesInWindow := 0 } else e
  let e2 := { e1 with framesInWindow := e1.framesInWindow + 1, lastFrameTsMs := t }
  if 1000 ≤ t - e2.windowStartMs then
    { e2 with
        measuredFps := roundHalfUp (e2.framesInWindow * 1000) (t - e2.windowStartMs),
        framesInWindow := 0,
        windowStartMs := t }
  else e2

/-- `ClientModel::recordFrameReceived` at the list level: apply the window step
to the entry at `indexOfClient(id)` (no-op when `-1`). -/
def recordFrameReceived : List ClientEntry → String → Int → List ClientEntry
  | [], _, _ => []
  | e :: rest, cid, t =>
      if e.id = cid then recordFrameEntry e t :: rest
      else e :: recordFrameReceived rest cid t

/-- `ClientModel::clientIdAt` (clientmodel.cpp:174-179): id at an index, or the
empty string when out of range. -/
def clientIdAt (cl : List ClientEntry) (i : Nat) : String :=
  match cl.get? i with
  | some e => e.id
  | none => ""

/-- `ClientModel::configuredFpsAt` (clientmodel.cpp:193-198): configured FPS at
an index, or `0` when out of range. -/
def configuredFpsAt (cl : List ClientEntry) (i : Nat) : Int :=
  match cl.get? i with
  | some e => e.configuredFps
  | none => 0

/-- `ClientModel::measuredFpsAt` (clientmodel.cpp:200-205): measured FPS at an
index, or `0` when out of range. -/
def measuredFpsAt (cl : List ClientEntry) (i : Nat) : Int :=
  match cl.get? i with
  | some e => e.measuredFps
  | none => 0

/-- Reconnect delay of the reconnect loops in
`WebSocketImageClient::cleanupConnection` (websocketimageclient.cpp:288,319):
`std::min(30, 1 << std::min(attempt, 6))` seconds. -/
def backoff (attempt : Nat) : Nat :=
  min 30 (2 ^ min attempt 6)

/-- The `ImageServerBridge::ConnectionState` enum (imageserverbridge.h:40-44). -/
inductive ConnState
  | noClients
  | clientsConnected
  | receivingFrames
deriving Repr, DecidableEq

/-- User-visible notifications of the bridge: the `eventOccurred` codes touched
by the modelled operations (eventcodes.h) plus the `newFrameReady` forwarding
signal to the presentation layer. -/
inductive BridgeEvent
  | fpsFailedNoClient
  | fpsSendError
  | fpsApplied (fps : Int)
  | clientBecameActive (cid : String)
  | clientDisconnected (cid : String)
  | noClientsAvailable
  | newFrameReady (cid : String)
deriving Repr, DecidableEq

/-- The observable state of `ImageServerBridge` touched by the session
registry operations (imageserverbridge.h:116-140). `m_lastFrame` is the cached
image payload; it is opaque to the control plane and is not modelled. -/
structure Bridge where
  clients : List ClientEntry
  activeClientId : String
  configuredFps : Int
  currentFps : Int
  frameId : Int
  connState : ConnState
  statusMessage : String
  activeClientMeasuredFps : Int
  events : List BridgeEvent
deriving Repr, DecidableEq

/-- Initial bridge state (imageserverbridge.cpp:11-30): empty registry, no
active client; `cfg` is the configured FPS restored from `QSettings`. -/
def initBridge (cfg : Int) : Bridge :=
  { clients := []
    activeClientId := ""
    configuredFps := cfg
    currentFps := 0
    frameId := 0
    connState := .noClients
    statusMessage := ""
    activeClientMeasuredFps := 0
    events := [] }

/-- `ImageServerBridge::setFps` (imageserverbridge.cpp:173-216). Protobuf
serialization of the two-field message cannot fail, so that branch is elided;
`WebSocketServer::sendControlToClient` (websocketserver.cpp:126-137) succeeds
exactly when a session with the active id exists, which in the bridge's flow
coincides with membership in the client model. -/
def Bridge.setFps (b : Bridge) (fps : Int) : Bridge :=
  if b.activeClientId = "" then
    { b with events := b.events ++ [.fpsFailedNoClient] }
  else if (indexOfClient b.clients b.activeClientId).isSome then
    { b with
        currentFps := fps
        clients := setClientConfiguredFps b.clients b.activeClientId fps
        events := b.events ++ [.fpsApplied fps] }
  else
    { b with events := b.events ++ [.fpsSendError] }

/-- `ImageServerBridge::setActiveClient` (imageserverbridge.cpp:130-157):
no-op when the id is already active; otherwise demote the previous active
client (if any) to `Connected`, install the new id, mark it `Active`, re-send
the configured FPS, and emit `ClientBecameActive`. -/
def Bridge.setActiveClient (b : Bridge) (cid : String) : Bridge :=
  if b.activeClientId = cid then b
  else
    let cl := if b.activeClientId = "" then b.clients
              else setClientStatus b.clients b.activeClientId "Connected"
    let b1 := { b with clients := setClientStatus cl cid "Active", activeClientId := cid }
    let b2 := b1.setFps b1.configuredFps
    { b2 with events := b2.events ++ [.clientBecameActive cid] }

/-- `ImageServerBridge::onClientConnected` (imageserverbridge.cpp:240-266):
admit the client, update the connection state, promote it when no client is
active, then reapply the server-wide or per-client configured FPS. -/
def Bridge.onClientConnected (b : Bridge) (cid : String) : Bridge :=
  let b1 := { b with clients := addClient b.clients cid "Connected" }
  let b2 := if 0 < b1.clients.length then
      { b1 with connState := .clientsConnected, statusMessage := "Clients connected" }
    else b1
  let b3 := if b2.activeClientId = "" then b2.setActiveClient cid else b2
  if 0 < b3.configuredFps ∧ b3.activeClientId = cid then
    b3.setFps b3.configuredFps
  else
    match indexOfClient b3.clients cid with
    | some i =>
        let c := configuredFpsAt b3.clients i
        if 0 < c ∧ b3.activeClientId = cid then b3.setFps c else b3
    | none => b3

/-- `ImageServerBridge::onSessionDisconnected` (imageserverbridge.cpp:304-345):
remove the client; when the registry empties, clear the active reference and
report `NoClientsAvailable`; when the active client left, promote the first
remaining one; when no client is active and exactly one remains, promote it. -/
def Bridge.onSessionDisconnected (b : Bridge) (cid : String) : Bridge :=
  let b1 := { b with
      clients := removeClient b.clients cid
      events := b.events ++ [.clientDisconnected cid] }
  if b1.clients.length = 0 then
    { b1 with
        activeClientId := ""
        connState := .noClients
        statusMessage := "No clients available"
        events := b1.events ++ [.noClientsAvailable] }
  else if b1.activeClientId = cid then
    b1.setActiveClient (clientIdAt b1.clients 0)
  else if b1.activeClientId = "" ∧ b1.clients.length = 1 then
    b1.setActiveClient (clientIdAt b1.clients 0)
  else b1

/-- `ImageServerBridge::onFrameReceived` (imageserverbridge.cpp:347-381):
always record the frame in the sender's Measurement Window; only when the
sender is the active client, advance the frame counter, refresh the displayed
measured FPS, and forward the frame to the presentation layer. `t` is the
wall-clock arrival timestamp in milliseconds. -/
def Bridge.onFrameReceived (b : Bridge) (cid : String) (t : Int) : Bridge :=
  let b1 := { b with clients := recordFrameReceived b.clients cid t }
  if cid ≠ b1.activeClientId then b1
  else
    let b2 := { b1 with
        connState := .receivingFrames
        statusMessage := "Receiving frames"
        frameId := b1.frameId + 1 }
    let b3 := match indexOfClient b2.clients cid with
      | some i =>
          let m := measuredFpsAt b2.clients i
          if m ≠ b2.activeClientMeasuredFps then { b2 with activeClientMeasuredFps := m }
          else b2
      | none => b2
    { b3 with events := b3.events ++ [.newFrameReady cid] }

/-- An admit (`onClientConnected`) or remove (`onSessionDisconnected`) event of
the session registry. -/
inductive RegOp
  | admitClient (cid : String)
  | remove (cid : String)
deriving Repr, DecidableEq

/-- Apply one registry event to the bridge. -/
def Bridge.applyOp (b : Bridge) : RegOp → Bridge
  | .admitClient cid => b.onClientConnected cid
  | .remove cid => b.onSessionDisconnected cid

/-- Apply a sequence of registry events to the bridge. -/
def Bridge.applyOps (b : Bridge) (ops : List RegOp) : Bridge :=
  ops.foldl Bridge.applyOp b

/-- Outcome of `ClientSession::onBinaryMessageReceived`
(clientsession.cpp:53-88) for one received binary frame. -/
inductive RxResult
  | droppedEmpty
  | controlParsed (payload : List Nat)
  | controlParseFailed (payload : List Nat)
  | dataFrame (payload : List Nat)
  | dataDecodeFailed (payload : List Nat)
deriving Repr, DecidableEq

/-- `ClientSession::onBinaryMessageReceived` (clientsession.cpp:53-88).
Bytes are modelled as naturals; `parseOk` abstracts
`ControlMessage::ParseFromArray` succeeding and `jpegOk` abstracts
`QImage::loadFromData(..., "JPEG")` succeeding on the given payload. -/
def onBinaryMessageReceived (parseOk jpegOk : List Nat → Bool) :
    List Nat → RxResult
  | [] => .droppedEmpty
  | b :: rest =>
      if b = 1 then
        if parseOk rest then .controlParsed rest else .controlParseFailed rest
      else
        let payload := if b = 0 then rest else b :: rest
        if jpegOk payload then .dataFrame payload else .dataDecodeFailed payload

/-- A received frame counts as discarded when the handler returns without
emitting `controlMessageReceived` or `frameReceived`. -/
def RxResult.isDropped : RxResult → Bool
  | .droppedEmpty => true
  | .controlParseFailed _ => true
  | .dataDecodeFailed _ => true
  | _ => false

/-- A received frame was parsed against the Control Message schema. -/
def RxResult.isControl : RxResult → Bool
  | .controlParsed _ => true
  | .controlParseFailed _ => true
  | _ => false

/-- State of `WebSocketImageClient` (websocketimageclient.cpp:22-36) relevant
to connect/teardown: the atomic flags, whether the websocket stream, the
`io_context` and the IO-thread object are currently allocated, and counters of
the observable effects (resource frees, `disconnected` notifications,
reconnect loops launched). `cleanupConnection` holds `m_impl->mtx` throughout,
so its invocations are serialized and modelled as sequential steps. -/
structure WSClientState where
  running : Bool
  reconnecting : Bool
  wsAlive : Bool
  iocAlive : Bool
  ioThreadAlive : Bool
  wsFrees : Nat
  iocFrees : Nat
  disconnectNotices : Nat
  reconnectLoopsStarted : Nat
deriving Repr, DecidableEq

/-- Freshly constructed client: nothing allocated, nothing running. -/
def initialWSClientState : WSClientState :=
  { running := false
    reconnecting := false
    wsAlive := false
    iocAlive := false
    ioThreadAlive := false
    wsFrees := 0
    iocFrees := 0
    disconnectNotices := 0
    reconnectLoopsStarted := 0 }

/-- `WebSocketImageClient::cleanupConnection` (websocketimageclient.cpp:230-332).
`onIoThread` says whether the invocation runs on the IO loop's own thread
(`std::this_thread::get_id() == m_impl->ioThread->get_id()`). Closing the
websocket and stopping the `io_context` do not change the modelled state;
`unique_ptr::reset` frees the resource exactly when the pointer is non-null.
The `m_onDisconnected` callback is assumed registered. -/
def cleanupConnection (s : WSClientState) (onIoThread : Bool) : WSClientState :=
  let s1 := { s with running := false }
  let inIo := s1.ioThreadAlive && onIoThread
  let s2 := if s1.ioThreadAlive && !inIo
    then { s1 with ioThreadAlive := false }   -- join the IO thread, reset the handle
    else s1
  if !inIo then
    let s3 := { s2 with
        wsFrees := s2.wsFrees + (if s2.wsAlive then 1 else 0)
        wsAlive := false
        iocFrees := s2.iocFrees + (if s2.iocAlive then 1 else 0)
        iocAlive := false }
    let s4 := { s3 with disconnectNotices := s3.disconnectNotices + 1 }
    if s4.reconnecting then s4
    else { s4 with
        reconnecting := true
        reconnectLoopsStarted := s4.reconnectLoopsStarted + 1 }
  else
    -- on the IO thread: defer resource frees, but notify and start the
    -- reconnect loop now (websocketimageclient.cpp:274-304)
    let s3 := { s2 with disconnectNotices := s2.disconnectNotices + 1 }
    if s3.reconnecting then s3
    else { s3 with
        reconnecting := true
        reconnectLoopsStarted := s3.reconnectLoopsStarted + 1 }

/-- How the connection establishment inside `connectToServer` turns out:
handshake success, handshake timeout (5 s), handshake failure, or an exception
thrown while resolving / TCP-connecting (before the websocket stream and the
IO thread exist). -/
inductive HsOutcome
  | success
  | timeout
  | hsFailure
  | connectError
deriving Repr, DecidableEq

/-- `WebSocketImageClient::connectToServer` (websocketimageclient.cpp:50-148)
as seen synchronously by the caller (a non-IO thread): early success when
already running; otherwise cleanup of the previous connection, allocation of
the `io_context`, then — unless resolving/connecting throws — allocation of
the websocket stream and IO thread, and the bounded handshake wait. Timeout
and handshake failure tear down via `cleanupConnection` and return `false`. -/
def connectToServer (s : WSClientState) (outcome : HsOutcome) :
    Bool × WSClientState :=
  if s.running then (true, s)
  else
    let s1 := cleanupConnection s false
    let s2 := { s1 with running := true, iocAlive := true }
    match outcome with
    | .connectError => (false, { s2 with running := false })
    | .timeout =>
        let s3 := { s2 with wsAlive := true, ioThreadAlive := true }
        (false, cleanupConnection s3 false)
    | .hsFailure =>
        let s3 := { s2 with wsAlive := true, ioThreadAlive := true }
        (false, cleanupConnection s3 false)
    | .success =>
        let s3 := { s2 with wsAlive := true, ioThreadAlive := true }
        (true, s3)

/-- A sequence of serialized `cleanupConnection` invocations, each tagged with
whether it runs on the IO thread. -/
def cleanupSeq (s : WSClientState) (ctxs : List Bool) : WSClientState :=
  ctxs.foldl cleanupConnection s

/-- The quiescent connected state: a successful `connectToServer` has
completed, the read loop is armed, and the transient reconnect loop spawned by
the entry cleanup has observed `running == true` and stored
`reconnecting = false` on exit; effect counters are zeroed to analyse a single
teardown episode. -/
def connectedState : WSClientState :=
  { running := true
    reconnecting := false
    wsAlive := true
    iocAlive := true
    ioThreadAlive := true
    wsFrees := 0
    iocFrees := 0
    disconnectNotices := 0
    reconnectLoopsStarted := 0 }

/-! ### Basic facts about the client-model list operations -/

/-- Ids of the registry rows, in order. -/
def clientIds (cl : List ClientEntry) : List String :=
  cl.map (fun e => e.id)

/-- Id-and-status projection of the registry rows. -/
def idStatus (e : ClientEntry) : String × String :=
  (e.id, e.status)

theorem clientIds_nil : clientIds [] = [] := rfl

theorem clientIds_cons (e : ClientEntry) (rest : List ClientEntry) :
    clientIds (e :: rest) = e.id :: clientIds rest := rfl

theorem mem_clientIds {cl : List ClientEntry} {a : String} :
    a ∈ clientIds cl ↔ ∃ e ∈ cl, e.id = a := by
  simp [clientIds]

theorem indexOfClient_eq_none_iff (cl : List ClientEntry) (cid : String) :
    indexOfClient cl cid = none ↔ ∀ e ∈ cl, e.id ≠ cid := by
  induction cl with
  | nil => simp [indexOfClient]
  | cons e rest ih =>
      by_cases h : e.id = cid
      · simp [indexOfClient, h]
      · simp [indexOfClient, h, Option.map_eq_none', ih]

theorem indexOfClient_isSome_iff (cl : List ClientEntry) (cid : String) :
    (indexOfClient cl cid).isSome ↔ cid ∈ clientIds cl := by
  rw [mem_clientIds, Option.isSome_iff_ne_none]
  constructor
  · intro h
    by_contra hc
    push_neg at hc
    exact h ((indexOfClient_eq_none_iff cl cid).mpr fun e he => hc e he)
  · rintro ⟨e, he, rfl⟩ hnone
    exact (indexOfClient_eq_none_iff cl e.id).mp hnone e he rfl

theorem map_id_of_fixed {α : Type} (f : α → α) :
    ∀ l : List α, (∀ x ∈ l, f x = x) → l.map f = l
  | [], _ => rfl
  | x :: xs, h => by
      simp only [List.map_cons, h x (List.mem_cons_self x xs),
        map_id_of_fixed f xs fun y hy => h y (List.mem_cons_of_mem x hy)]

theorem clientIds_setClientStatus (cl : List ClientEntry) (cid st : String) :
    clientIds (setClientStatus cl cid st) = clientIds cl := by
  induction cl with
  | nil => rfl
  | cons e rest ih =>
      by_cases h : e.id = cid
      · simp [setClientStatus, h, clientIds_cons]
      · simp [setClientStatus, h, clientIds_cons, ih]

theorem idStatus_setClientConfiguredFps (cl : List ClientEntry) (cid : String) (f : Int) :
    (setClientConfiguredFps cl cid f).map idStatus = cl.map idStatus := by
  induction cl with
  | nil => rfl
  | cons e rest ih =>
      by_cases h : e.id = cid
      · simp [setClientConfiguredFps, h, idStatus]
      · simp [setClientConfiguredFps, h, ih]

theorem clientIds_eq_map_idStatus (cl : List ClientEntry) :
    clientIds cl = (cl.map idStatus).map Prod.fst := by
  simp [clientIds, idStatus]

theorem clientIds_of_idStatus_eq {cl cl' : List ClientEntry}
    (h : cl'.map idStatus = cl.map idStatus) : clientIds cl' = clientIds cl := by
  rw [clientIds_eq_map_idStatus, clientIds_eq_map_idStatus, h]

theorem setClientStatus_of_absent (cl : List ClientEntry) (cid st : String)
    (h : ∀ e ∈ cl, e.id ≠ cid) : setClientStatus cl cid st = cl := by
  induction cl with
  | nil => rfl
  | cons e rest ih =>
      have he : e.id ≠ cid := h e (List.mem_cons_self e rest)
      simp [setClientStatus, he, ih fun x hx => h x (List.mem_cons_of_mem e hx)]

theorem mem_setClientStatus_of_ne {cl : List ClientEntry} {cid st : String}
    {e : ClientEntry} (he : e ∈ cl) (hne : e.id ≠ cid) :
    e ∈ setClientStatus cl cid st := by
  induction cl with
  | nil => cases he
  | cons a rest ih =>
      by_cases h : a.id = cid
      · rcases List.mem_cons.mp he with rfl | hmem
        · exact absurd h hne
        · simp [setClientStatus, h, List.mem_cons_of_mem _ hmem]
      · rcases List.mem_cons.mp he with rfl | hmem
        · simp [setClientStatus, h, List.mem_cons_self]
        · simp [setClientStatus, h, List.mem_cons_of_mem _ (ih hmem)]

theorem mem_of_mem_removeClient {cl : List ClientEntry} {cid : String}
    {e : ClientEntry} (he : e ∈ removeClient cl cid) : e ∈ cl := by
  induction cl with
  | nil => cases he
  | cons a rest ih =>
      by_cases h : a.id = cid
      · simp only [removeClient, if_pos h] at he
        exact List.mem_cons_of_mem a he
      · simp only [removeClient, if_neg h] at he
        rcases List.mem_cons.mp he with rfl | hmem
        · exact List.mem_cons_self e rest
        · exact List.mem_cons_of_mem a (ih hmem)

theorem clientIds_removeClient_sublist (cl : List ClientEntry) (cid : String) :
    (clientIds (removeClient cl cid)).Sublist (clientIds cl) := by
  induction cl with
  | nil => simp [removeClient]
  | cons a rest ih =>
      by_cases h : a.id = cid
      · simp only [removeClient, if_pos h, clientIds_cons]
        exact (List.sublist_cons_self _ _)
      · simp only [removeClient, if_neg h, clientIds_cons]
        exact ih.cons₂ _

theorem not_mem_clientIds_removeClient {cl : List ClientEntry} {cid : String}
    (hN : (clientIds cl).Nodup) :
    cid ∉ clientIds (removeClient cl cid) := by
  induction cl with
  | nil => simp [removeClient, clientIds]
  | cons a rest ih =>
      rw [clientIds_cons, List.nodup_cons] at hN
      by_cases h : a.id = cid
      · simp only [removeClient, if_pos h]
        rw [← h]
        exact hN.1
      · simp only [removeClient, if_neg h, clientIds_cons, List.mem_cons]
        rintro (rfl | hmem)
        · exact h rfl
        · exact ih hN.2 hmem

theorem mem_clientIds_removeClient_of_ne {cl : List ClientEntry} {cid a : String}
    (ha : a ∈ clientIds cl) (hne : a ≠ cid) :
    a ∈ clientIds (removeClient cl cid) := by
  induction cl with
  | nil => cases ha
  | cons e rest ih =>
      rw [clientIds_cons, List.mem_cons] at ha
      by_cases h : e.id = cid
      · simp only [removeClient, if_pos h]
        rcases ha with rfl | hmem
        · exact absurd h hne
        · exact hmem
      · simp only [removeClient, if_neg h, clientIds_cons, List.mem_cons]
        rcases ha with rfl | hmem
        · exact Or.inl rfl
        · exact Or.inr (ih hmem)

theorem addClient_of_present (cl : List ClientEntry) (cid st : String)
    (h : (indexOfClient cl cid).isSome) : addClient cl cid st = cl := by
  simp [addClient, h]

theorem addClient_of_absent (cl : List ClientEntry) (cid st : String)
    (h : indexOfClient cl cid = none) :
    addClient cl cid st = cl ++ [{ id := cid, status := st }] := by
  simp [addClient, h]

theorem mem_recordFrameReceived_of_id {cl : List ClientEntry} {cid : String}
    {t : Int} (hN : (clientIds cl).Nodup) {e : ClientEntry}
    (he : e ∈ cl) (hid : e.id = cid) :
    recordFrameEntry e t ∈ recordFrameReceived cl cid t := by
  induction cl with
  | nil => cases he
  | cons a rest ih =>
      rw [clientIds_cons, List.nodup_cons] at hN
      by_cases h : a.id = cid
      · simp only [recordFrameReceived, if_pos h]
        rcases List.mem_cons.mp he with rfl | hmem
        · exact List.mem_cons_self _ _
        · exact absurd (mem_clientIds.mpr ⟨e, hmem, hid.trans h.symm⟩) hN.1
      · simp only [recordFrameReceived, if_neg h]
        rcases List.mem_cons.mp he with rfl | hmem
        · exact absurd hid h
        · exact List.mem_cons_of_mem a (ih hN.2 hmem)

theorem mem_recordFrameReceived_of_ne {cl : List ClientEntry} {cid : String}
    {t : Int} {e : ClientEntry} (he : e ∈ cl) (hne : e.id ≠ cid) :
    e ∈ recordFrameReceived cl cid t := by
  induction cl with
  | nil => cases he
  | cons a rest ih =>
      by_cases h : a.id = cid
      · simp only [recordFrameReceived, if_pos h]
        rcases List.mem_cons.mp he with rfl | hmem
        · exact absurd h hne
        · exact List.mem_cons_of_mem _ hmem
      · simp only [recordFrameReceived, if_neg h]
        rcases List.mem_cons.mp he with rfl | hmem
        · exact List.mem_cons_self _ _
        · exact List.mem_cons_of_mem a (ih hmem)

theorem clientIdAt_zero_mem {cl : List ClientEntry} (h : cl ≠ []) :
    clientIdAt cl 0 ∈ clientIds cl := by
  cases cl with
  | nil => exact absurd rfl h
  | cons e rest => simp [clientIdAt, clientIds_cons]

/-! ### The active-reference invariant of the session registry -/

/-- Row-level status discipline: a row has status `"Active"` exactly when it
carries the active id. -/
def entriesOK (cl : List ClientEntry) (act : String) : Prop :=
  ∀ e ∈ cl, (e.status = "Active" ↔ e.id = act)

/-- The registry invariant of the bridge: distinct nonempty ids, the active
reference is empty exactly when the registry is, and the status discipline. -/
structure Good (b : Bridge) : Prop where
  nodup : (clientIds b.clients).Nodup
  noEmptyId : "" ∉ clientIds b.clients
  emptyIff : b.activeClientId = "" ↔ b.clients = []
  activeMem : b.activeClientId ≠ "" → b.activeClientId ∈ clientIds b.clients
  statusIff : entriesOK b.clients b.activeClientId

theorem entriesOK_of_idStatus_eq {cl cl' : List ClientEntry} {act : String}
    (h : cl'.map idStatus = cl.map idStatus) (hOK : entriesOK cl act) :
    entriesOK cl' act := by
  intro e' he'
  have hm : idStatus e' ∈ cl.map idStatus := by
    rw [← h]; exact List.mem_map_of_mem idStatus he'
  rcases List.mem_map.mp hm with ⟨e, he, heq⟩
  have hid : e.id = e'.id := congrArg Prod.fst heq
  have hst : e.status = e'.status := congrArg Prod.snd heq
  rw [← hid, ← hst]
  exact hOK e he

theorem setFps_activeClientId (b : Bridge) (f : Int) :
    (b.setFps f).activeClientId = b.activeClientId := by
  unfold Bridge.setFps
  split <;> [rfl; split <;> rfl]

theorem setFps_configuredFps (b : Bridge) (f : Int) :
    (b.setFps f).configuredFps = b.configuredFps := by
  unfold Bridge.setFps
  split <;> [rfl; split <;> rfl]

theorem setFps_idStatus (b : Bridge) (f : Int) :
    (b.setFps f).clients.map idStatus = b.clients.map idStatus := by
  unfold Bridge.setFps
  split
  · rfl
  · split
    · exact idStatus_setClientConfiguredFps _ _ _
    · rfl

theorem good_transfer {b b' : Bridge} (hG : Good b)
    (hcl : b'.clients.map idStatus = b.clients.map idStatus)
    (hact : b'.activeClientId = b.activeClientId) : Good b' := by
  have hids : clientIds b'.clients = clientIds b.clients := clientIds_of_idStatus_eq hcl
  refine ⟨?_, ?_, ?_, ?_, ?_⟩
  · rw [hids]; exact hG.nodup
  · rw [hids]; exact hG.noEmptyId
  · rw [hact]
    constructor
    · intro h
      have := (hG.emptyIff.mp h)
      rw [this] at hcl
      exact List.map_eq_nil_iff.mp hcl
    · intro h
      rw [h] at hcl
      exact hG.emptyIff.mpr (List.map_eq_nil_iff.mp hcl.symm)
  · rw [hact, hids]; exact hG.activeMem
  · rw [hact]; exact entriesOK_of_idStatus_eq hcl hG.statusIff

theorem good_setFps {b : Bridge} (hG : Good b) (f : Int) : Good (b.setFps f) :=
  good_transfer hG (setFps_idStatus b f) (setFps_activeClientId b f)

theorem demote_noActive {cl : List ClientEntry} {old : String}
    (hN : (clientIds cl).Nodup) (hOK : entriesOK cl old) :
    ∀ e ∈ setClientStatus cl old "Connected", e.status ≠ "Active" := by
  induction cl with
  | nil => intro e he; cases he
  | cons a rest ih =>
      rw [clientIds_cons, List.nodup_cons] at hN
      by_cases h : a.id = old
      · simp only [setClientStatus, if_pos h]
        intro e he
        rcases List.mem_cons.mp he with rfl | hmem
        · intro hc
          have hcs : ("Connected" : String) = "Active" := hc
          exact absurd hcs (by decide)
        · intro hc
          have := (hOK e (List.mem_cons_of_mem a hmem)).mp hc
          exact hN.1 (by rw [← h] at this; exact mem_clientIds.mpr ⟨e, hmem, this⟩)
      · simp only [setClientStatus, if_neg h]
        intro e he
        rcases List.mem_cons.mp he with rfl | hmem
        · intro hc; exact h ((hOK e (List.mem_cons_self e rest)).mp hc)
        · exact ih hN.2 (fun x hx => hOK x (List.mem_cons_of_mem a hx)) e hmem

theorem noEmptyActive_noActive {cl : List ClientEntry}
    (hne : "" ∉ clientIds cl) (hOK : entriesOK cl "") :
    ∀ e ∈ cl, e.status ≠ "Active" := by
  intro e he hc
  exact hne (mem_clientIds.mpr ⟨e, he, (hOK e he).mp hc⟩)

theorem entriesOK_promote {cl : List ClientEntry} {cid : String}
    (hN : (clientIds cl).Nodup) (hno : ∀ e ∈ cl, e.status ≠ "Active") :
    entriesOK (setClientStatus cl cid "Active") cid := by
  induction cl with
  | nil => intro e he; cases he
  | cons a rest ih =>
      rw [clientIds_cons, List.nodup_cons] at hN
      by_cases h : a.id = cid
      · simp only [setClientStatus, if_pos h]
        intro e he
        rcases List.mem_cons.mp he with rfl | hmem
        · simpa using h
        · constructor
          · intro hc; exact absurd hc (hno e (List.mem_cons_of_mem a hmem))
          · intro hc
            exact absurd (mem_clientIds.mpr ⟨e, hmem, hc.trans h.symm⟩) hN.1
      · simp only [setClientStatus, if_neg h]
        intro e he
        rcases List.mem_cons.mp he with rfl | hmem
        · constructor
          · intro hc; exact absurd hc (hno e (List.mem_cons_self e rest))
          · intro hc; exact absurd hc h
        · exact ih hN.2 (fun x hx => hno x (List.mem_cons_of_mem a hx)) e hmem

theorem setActiveClient_parts {b : Bridge} {cid : String}
    (hN : (clientIds b.clients).Nodup)
    (hne : "" ∉ clientIds b.clients)
    (hOK : entriesOK b.clients b.activeClientId) :
    (b.setActiveClient cid).activeClientId = cid ∧
    clientIds (b.setActiveClient cid).clients = clientIds b.clients ∧
    entriesOK (b.setActiveClient cid).clients cid ∧
    (b.setActiveClient cid).configuredFps = b.configuredFps := by
  by_cases heq : b.activeClientId = cid
  · rw [Bridge.setActiveClient, if_pos heq]
    exact ⟨heq, rfl, heq ▸ hOK, rfl⟩
  · rw [Bridge.setActiveClient, if_neg heq]
    set cl0 : List ClientEntry :=
      if b.activeClientId = "" then b.clients
      else setClientStatus b.clients b.activeClientId "Connected" with hcl0
    have hids0 : clientIds cl0 = clientIds b.clients := by
      rw [hcl0]; split
      · rfl
      · exact clientIds_setClientStatus _ _ _
    have hno : ∀ e ∈ cl0, e.status ≠ "Active" := by
      rw [hcl0]; split
      · rename_i hA
        exact noEmptyActive_noActive hne (hA ▸ hOK)
      · exact demote_noActive hN hOK
    set cl1 : List ClientEntry := setClientStatus cl0 cid "Active" with hcl1
    have hids1 : clientIds cl1 = clientIds b.clients := by
      rw [hcl1, clientIds_setClientStatus, hids0]
    have hOK1 : entriesOK cl1 cid := by
      rw [hcl1]
      exact entriesOK_promote (by rw [hids0]; exact hN) hno
    set b1 : Bridge := { b with clients := cl1, activeClientId := cid } with hb1
    have hact2 : (b1.setFps b1.configuredFps).activeClientId = cid :=
      setFps_activeClientId b1 _
    have hmap2 : (b1.setFps b1.configuredFps).clients.map idStatus = cl1.map idStatus :=
      setFps_idStatus b1 _
    refine ⟨hact2, ?_, ?_, ?_⟩
    · rw [clientIds_of_idStatus_eq hmap2, hids1]
    · exact entriesOK_of_idStatus_eq hmap2 hOK1
    · rw [setFps_configuredFps]

theorem good_setActiveClient {b : Bridge} {cid : String}
    (hN : (clientIds b.clients).Nodup)
    (hne : "" ∉ clientIds b.clients)
    (hOK : entriesOK b.clients b.activeClientId)
    (hmem : cid ∈ clientIds b.clients) (hcid : cid ≠ "") :
    Good (b.setActiveClient cid) := by
  obtain ⟨h1, h2, h3, _⟩ := @setActiveClient_parts b cid hN hne hOK
  refine ⟨?_, ?_, ?_, ?_, ?_⟩
  · rw [h2]; exact hN
  · rw [h2]; exact hne
  · constructor
    · intro h; rw [h1] at h; exact absurd h hcid
    · intro h
      exfalso
      have hm : cid ∈ clientIds (b.setActiveClient cid).clients := by
        rw [h2]; exact hmem
      rw [h] at hm; cases hm
  · intro _; rw [h1, h2]; exact hmem
  · rw [h1]; exact h3

theorem clientIds_append (l1 l2 : List ClientEntry) :
    clientIds (l1 ++ l2) = clientIds l1 ++ clientIds l2 :=
  List.map_append _ _ _

theorem entriesOK_append_connected {cl : List ClientEntry} {act cid : String}
    (hOK : entriesOK cl act) (hne2 : cid ≠ act) :
    entriesOK (cl ++ [{ id := cid, status := "Connected" }]) act := by
  intro e he
  rcases List.mem_append.mp he with hmem | hnew
  · exact hOK e hmem
  · rcases List.mem_singleton.mp hnew with rfl
    constructor
    · intro hc
      have hcs : ("Connected" : String) = "Active" := hc
      exact absurd hcs (by decide)
    · intro hc; exact absurd hc hne2

theorem good_onClientConnected {b : Bridge} (hG : Good b) {cid : String}
    (hcid : cid ≠ "") : Good (b.onClientConnected cid) := by
  classical
  unfold Bridge.onClientConnected
  by_cases hpres : (indexOfClient b.clients cid).isSome
  · -- the id is already registered: `addClient` is a no-op
    have hmemIds : cid ∈ clientIds b.clients :=
      (indexOfClient_isSome_iff b.clients cid).mp hpres
    have hne : b.clients ≠ [] := by
      intro h
      rw [h] at hmemIds
      cases hmemIds
    have hact : b.activeClientId ≠ "" := fun h => hne (hG.emptyIff.mp h)
    rw [addClient_of_present _ _ _ hpres]
    have hlen : 0 < b.clients.length := List.length_pos.mpr hne
    dsimp only
    rw [if_pos hlen, if_neg hact]
    set bc : Bridge :=
      { b with connState := .clientsConnected, statusMessage := "Clients connected" }
      with hbc
    have hGc : Good bc := good_transfer hG rfl rfl
    split
    · exact good_setFps hGc _
    · split
      · split
        · exact good_setFps hGc _
        · exact hGc
      · exact hGc
  · -- a fresh id: `addClient` appends a `Connected` row
    have hnone : indexOfClient b.clients cid = none :=
      Option.not_isSome_iff_eq_none.mp hpres
    have hnotmem : cid ∉ clientIds b.clients := by
      rw [← indexOfClient_isSome_iff, hnone]
      simp
    rw [addClient_of_absent _ _ _ hnone]
    have hlen : 0 < (b.clients ++ [({ id := cid, status := "Connected" } : ClientEntry)]).length := by
      simp
    have hN2 : (clientIds (b.clients ++ [({ id := cid, status := "Connected" } : ClientEntry)])).Nodup := by
      rw [clientIds_append]
      rw [List.nodup_append]
      refine ⟨hG.nodup, by simp [clientIds], ?_⟩
      intro a ha hb
      rcases List.mem_singleton.mp (by simpa [clientIds] using hb) with rfl
      exact hnotmem ha
    have hne2 : "" ∉ clientIds (b.clients ++ [({ id := cid, status := "Connected" } : ClientEntry)]) := by
      rw [clientIds_append, List.mem_append]
      rintro (h | h)
      · exact hG.noEmptyId h
      · rcases List.mem_singleton.mp (by simpa [clientIds] using h) with h2
        exact hcid h2.symm
    have hmem2 : cid ∈ clientIds (b.clients ++ [({ id := cid, status := "Connected" } : ClientEntry)]) := by
      rw [clientIds_append, List.mem_append]
      right
      simp [clientIds]
    dsimp only
    rw [if_pos hlen]
    by_cases hact : b.activeClientId = ""
    · rw [if_pos hact]
      set bA : Bridge :=
        { b with
            clients := b.clients ++ [{ id := cid, status := "Connected" }]
            connState := .clientsConnected
            statusMessage := "Clients connected" }
        with hbA
      have hOKA : entriesOK bA.clients bA.activeClientId := by
        show entriesOK (b.clients ++ _) b.activeClientId
        rw [hact]
        exact entriesOK_append_connected (by rw [← hact]; exact hG.statusIff) hcid
      have hGA : Good (bA.setActiveClient cid) :=
        good_setActiveClient hN2 hne2 hOKA hmem2 hcid
      split
      · exact good_setFps hGA _
      · split
        · split
          · exact good_setFps hGA _
          · exact hGA
        · exact hGA
    · rw [if_neg hact]
      have hactmem : b.activeClientId ∈ clientIds b.clients := hG.activeMem hact
      have hcne : cid ≠ b.activeClientId := by
        intro h; rw [h] at hnotmem; exact hnotmem hactmem
      set bB : Bridge :=
        { b with
            clients := b.clients ++ [{ id := cid, status := "Connected" }]
            connState := .clientsConnected
            statusMessage := "Clients connected" }
        with hbB
      have hGB : Good bB := by
        refine ⟨hN2, hne2, ?_, ?_, ?_⟩
        · constructor
          · intro h; exact absurd h hact
          · intro h
            exact absurd h (by simp)
        · intro _
          show b.activeClientId ∈ clientIds (b.clients ++ _)
          rw [clientIds_append, List.mem_append]
          exact Or.inl hactmem
        · exact entriesOK_append_connected hG.statusIff hcne
      split
      · exact good_setFps hGB _
      · split
        · split
          · exact good_setFps hGB _
          · exact hGB
        · exact hGB

theorem good_onSessionDisconnected {b : Bridge} (hG : Good b) (cid : String) :
    Good (b.onSessionDisconnected cid) := by
  classical
  unfold Bridge.onSessionDisconnected
  dsimp only
  have hNr : (clientIds (removeClient b.clients cid)).Nodup :=
    hG.nodup.sublist (clientIds_removeClient_sublist b.clients cid)
  have hner : "" ∉ clientIds (removeClient b.clients cid) := fun h =>
    hG.noEmptyId ((clientIds_removeClient_sublist b.clients cid).subset h)
  have hOKr : entriesOK (removeClient b.clients cid) b.activeClientId := fun e he =>
    hG.statusIff e (mem_of_mem_removeClient he)
  split
  · -- the registry emptied
    rename_i hlen0
    have hnil : removeClient b.clients cid = [] := List.length_eq_zero.mp hlen0
    refine ⟨?_, ?_, ?_, ?_, ?_⟩
    · show (clientIds (removeClient b.clients cid)).Nodup
      rw [hnil]; exact List.nodup_nil
    · show "" ∉ clientIds (removeClient b.clients cid)
      rw [hnil]; simp [clientIds]
    · show ("" : String) = "" ↔ removeClient b.clients cid = []
      simp [hnil]
    · intro h; exact absurd rfl h
    · show entriesOK (removeClient b.clients cid) ""
      rw [hnil]; intro e he; cases he
  · split
    · -- the active client left: promote the first remaining one
      rename_i hlen0 hwas
      have hrne : removeClient b.clients cid ≠ [] := by
        intro h; exact hlen0 (by rw [h]; rfl)
      have hnext_mem : clientIdAt (removeClient b.clients cid) 0 ∈
          clientIds (removeClient b.clients cid) := clientIdAt_zero_mem hrne
      have hnextne : clientIdAt (removeClient b.clients cid) 0 ≠ "" := by
        intro h; exact hner (h ▸ hnext_mem)
      exact good_setActiveClient hNr hner hOKr hnext_mem hnextne
    · split
      · -- dead branch: an empty active reference forces an empty registry
        rename_i hlen0 _ hcond
        exfalso
        have hclnil : b.clients = [] := hG.emptyIff.mp hcond.1
        exact hlen0 (by rw [hclnil]; rfl)
      · -- a non-active client left; the active reference is untouched
        rename_i hlen0 hwasnot hcond
        have hrne : removeClient b.clients cid ≠ [] := by
          intro h; exact hlen0 (by rw [h]; rfl)
        have hact : b.activeClientId ≠ "" := by
          intro h
          have hclnil : b.clients = [] := hG.emptyIff.mp h
          exact hrne (by rw [hclnil]; rfl)
        refine ⟨hNr, hner, ?_, ?_, hOKr⟩
        · constructor
          · intro h; exact absurd h hact
          · intro h; exact absurd h hrne
        · intro _
          exact mem_clientIds_removeClient_of_ne (hG.activeMem hact) hwasnot

theorem good_applyOps {b : Bridge} (hG : Good b) :
    ∀ ops : List RegOp, (∀ cid, RegOp.admitClient cid ∈ ops → cid ≠ "") →
      Good (b.applyOps ops) := by
  intro ops
  induction ops generalizing b with
  | nil => intro _; exact hG
  | cons op rest ih =>
      intro h
      have hstep : Good (b.applyOp op) := by
        cases op with
        | admitClient cid =>
            exact good_onClientConnected hG (h cid (List.mem_cons_self _ _))
        | remove cid => exact good_onSessionDisconnected hG cid
      have htail : ∀ cid, RegOp.admitClient cid ∈ rest → cid ≠ "" := fun cid hm =>
        h cid (List.mem_cons_of_mem _ hm)
      exact ih hstep htail

theorem good_initBridge (cfg : Int) : Good (initBridge cfg) := by
  refine ⟨?_, ?_, ?_, ?_, ?_⟩
  · exact List.nodup_nil
  · simp [initBridge, clientIds]
  · simp [initBridge]
  · intro h; exact absurd rfl h
  · intro e he; cases he

theorem filter_active_length {cl : List ClientEntry} {act : String}
    (hN : (clientIds cl).Nodup) (hOK : entriesOK cl act)
    (hne : "" ∉ clientIds cl) (hmem : act ≠ "" → act ∈ clientIds cl) :
    (cl.filter (fun e => e.status == "Active")).length =
      if act = "" then 0 else 1 := by
  have hcong : cl.filter (fun e => e.status == "Active") =
      cl.filter (fun e => e.id == act) := by
    apply List.filter_congr
    intro e he
    have hiff := hOK e he
    by_cases h : e.status = "Active"
    · simp [h, hiff.mp h]
    · have h2 : e.id ≠ act := fun hc => h (hiff.mpr hc)
      simp [h, h2]
  have hcount : (cl.filter (fun e => e.id == act)).length = (clientIds cl).count act := by
    rw [← List.countP_eq_length_filter, List.count_eq_countP, clientIds, List.countP_map]
    rfl
  rw [hcong, hcount]
  by_cases hact : act = ""
  · rw [if_pos hact, List.count_eq_zero]
    rw [hact]
    exact hne
  · rw [if_neg hact]
    exact List.count_eq_one_of_mem hN (hmem hact)

/-! ### Model-level operation sequences (for the duplicate-admission claim) -/

/-- An `addClient`/`removeClient` call on the client model. -/
inductive ModelOp
  | add (cid status : String)
  | remove (cid : String)
deriving Repr, DecidableEq

/-- Apply one model operation. -/
def applyModelOp (cl : List ClientEntry) : ModelOp → List ClientEntry
  | .add cid st => addClient cl cid st
  | .remove cid => removeClient cl cid

/-- Apply a sequence of model operations. -/
def applyModelOps (cl : List ClientEntry) (ops : List ModelOp) : List ClientEntry :=
  ops.foldl applyModelOp cl

theorem nodup_addClient {cl : List ClientEntry} (hN : (clientIds cl).Nodup)
    (cid st : String) : (clientIds (addClient cl cid st)).Nodup := by
  by_cases h : (indexOfClient cl cid).isSome
  · rw [addClient_of_present _ _ _ h]; exact hN
  · have hnone : indexOfClient cl cid = none := Option.not_isSome_iff_eq_none.mp h
    have hnot : cid ∉ clientIds cl := by
      rw [← indexOfClient_isSome_iff, hnone]; simp
    rw [addClient_of_absent _ _ _ hnone, clientIds_append, List.nodup_append]
    refine ⟨hN, by simp [clientIds], ?_⟩
    intro a ha hb
    rcases List.mem_singleton.mp (by simpa [clientIds] using hb) with rfl
    exact hnot ha

theorem nodup_applyModelOps :
    ∀ (ops : List ModelOp) (cl : List ClientEntry), (clientIds cl).Nodup →
      (clientIds (applyModelOps cl ops)).Nodup := by
  intro ops
  induction ops with
  | nil => intro cl hN; exact hN
  | cons op rest ih =>
      intro cl hN
      have hstep : (clientIds (applyModelOp cl op)).Nodup := by
        cases op with
        | add cid st => exact nodup_addClient hN cid st
        | remove cid => exact hN.sublist (clientIds_removeClient_sublist cl cid)
      exact ih (applyModelOp cl op) hstep

/-! ### The claims -/

/-- C1: over every admit/remove sequence from the empty registry (with the
accept-time UUID ids, which are never the empty sentinel string), the active
reference is empty iff the registry is; when non-empty it names a registered
client whose status is `"Active"`; and the number of `"Active"` rows is one
when the reference is non-empty and zero when it is empty. -/
theorem c1_registry_active_reference_invariant (cfg : Int) (ops : List RegOp)
    (hids : ∀ cid, RegOp.admitClient cid ∈ ops → cid ≠ "") :
    ((Bridge.applyOps (initBridge cfg) ops).activeClientId = "" ↔
      (Bridge.applyOps (initBridge cfg) ops).clients = []) ∧
    ((Bridge.applyOps (initBridge cfg) ops).activeClientId ≠ "" →
      ∃ e ∈ (Bridge.applyOps (initBridge cfg) ops).clients,
        e.id = (Bridge.applyOps (initBridge cfg) ops).activeClientId ∧
        e.status = "Active") ∧
    (((Bridge.applyOps (initBridge cfg) ops).clients.filter
        (fun e => e.status == "Active")).length =
      if (Bridge.applyOps (initBridge cfg) ops).activeClientId = "" then 0 else 1) := by
  have hG : Good (Bridge.applyOps (initBridge cfg) ops) :=
    good_applyOps (good_initBridge cfg) ops hids
  refine ⟨hG.emptyIff, ?_, ?_⟩
  · intro h
    rcases mem_clientIds.mp (hG.activeMem h) with ⟨e, he, hid⟩
    exact ⟨e, he, hid, (hG.statusIff e he).mpr hid⟩
  · exact filter_active_length hG.nodup hG.statusIff hG.noEmptyId hG.activeMem

/-- Witness for C1 at a concrete admit/admit/remove sequence. -/
theorem c1_registry_active_reference_invariant_witness :
    ((Bridge.applyOps (initBridge 0)
        [RegOp.admitClient "a", RegOp.admitClient "b", RegOp.remove "a"]).clients.filter
      (fun e => e.status == "Active")).length =
      (if (Bridge.applyOps (initBridge 0)
            [RegOp.admitClient "a", RegOp.admitClient "b", RegOp.remove "a"]).activeClientId = ""
        then 0 else 1) :=
  (c1_registry_active_reference_invariant 0
    [RegOp.admitClient "a", RegOp.admitClient "b", RegOp.remove "a"]
    (by
      intro cid hm
      simp only [List.mem_cons, List.not_mem_nil, or_false] at hm
      rcases hm with h | h | h
      · cases h; decide
      · cases h; decide
      · cases h)).2.2

/-- C10: admitting an id that is already registered is a no-op on the model,
and consequently the registered ids stay pairwise distinct over every
`addClient`/`removeClient` sequence from the empty model. -/
theorem c10_duplicate_admit_noop :
    (∀ (cl : List ClientEntry) (cid st : String),
      (indexOfClient cl cid).isSome → addClient cl cid st = cl) ∧
    (∀ ops : List ModelOp, (clientIds (applyModelOps [] ops)).Nodup) :=
  ⟨addClient_of_present, fun ops => nodup_applyModelOps ops [] List.nodup_nil⟩

/-- Witness for C10: re-admitting a registered id leaves the model unchanged. -/
theorem c10_duplicate_admit_noop_witness :
    addClient [{ id := "a", status := "Active" }] "a" "Connected" =
      [{ id := "a", status := "Active" }] :=
  c10_duplicate_admit_noop.1 [{ id := "a", status := "Active" }] "a" "Connected"
    (by decide)

theorem onFrameReceived_clients (b : Bridge) (cid : String) (t : Int) :
    (b.onFrameReceived cid t).clients = recordFrameReceived b.clients cid t := by
  unfold Bridge.onFrameReceived
  dsimp only
  split
  · rfl
  · split
    · split <;> rfl
    · rfl

theorem onFrameReceived_frameId (b : Bridge) (cid : String) (t : Int) :
    (b.onFrameReceived cid t).frameId =
      if cid = b.activeClientId then b.frameId + 1 else b.frameId := by
  unfold Bridge.onFrameReceived
  dsimp only
  split
  · rfl
  · rename_i h
    rw [if_pos (not_not.mp h)]
    split
    · split <;> rfl
    · rfl

theorem onFrameReceived_events (b : Bridge) (cid : String) (t : Int) :
    (b.onFrameReceived cid t).events =
      b.events ++ (if cid = b.activeClientId then [BridgeEvent.newFrameReady cid] else []) := by
  unfold Bridge.onFrameReceived
  dsimp only
  split
  · simp
  · rename_i h
    rw [if_pos (not_not.mp h)]
    split
    · split <;> rfl
    · rfl

/-- C2: a data frame from a registered session always updates that session's
Measurement Window counters (rows of other sessions are untouched), while the
frame counter `m_frameId` advances by exactly one, and the frame is forwarded
to the presentation layer, if and only if the sender is the active client. -/
theorem c2_frame_always_measured_forwarded_iff_active (b : Bridge) (cid : String)
    (t : Int) (hN : (clientIds b.clients).Nodup) (_hmem : cid ∈ clientIds b.clients) :
    (∀ e ∈ b.clients, e.id = cid →
        recordFrameEntry e t ∈ (b.onFrameReceived cid t).clients) ∧
    (∀ e ∈ b.clients, e.id ≠ cid → e ∈ (b.onFrameReceived cid t).clients) ∧
    ((b.onFrameReceived cid t).frameId =
      if cid = b.activeClientId then b.frameId + 1 else b.frameId) ∧
    (b.frameId ≤ (b.onFrameReceived cid t).frameId) ∧
    ((b.onFrameReceived cid t).events =
      b.events ++ (if cid = b.activeClientId then [BridgeEvent.newFrameReady cid] else [])) := by
  refine ⟨?_, ?_, onFrameReceived_frameId b cid t, ?_, onFrameReceived_events b cid t⟩
  · intro e he hid
    rw [onFrameReceived_clients]
    exact mem_recordFrameReceived_of_id hN he hid
  · intro e he hne
    rw [onFrameReceived_clients]
    exact mem_recordFrameReceived_of_ne he hne
  · rw [onFrameReceived_frameId]
    split <;> omega

/-- Witness for C2 at a concrete one-client bridge. -/
theorem c2_frame_always_measured_forwarded_iff_active_witness :
    (Bridge.onFrameReceived
        { initBridge 0 with
            clients := [{ id := "a", status := "Active" }], activeClientId := "a" }
        "a" 5000).frameId =
      if "a" = ({ initBridge 0 with
            clients := [{ id := "a", status := "Active" }],
            activeClientId := "a" } : Bridge).activeClientId
      then ({ initBridge 0 with
            clients := [{ id := "a", status := "Active" }],
            activeClientId := "a" } : Bridge).frameId + 1
      else ({ initBridge 0 with
            clients := [{ id := "a", status := "Active" }],
            activeClientId := "a" } : Bridge).frameId :=
  (c2_frame_always_measured_forwarded_iff_active
    { initBridge 0 with
        clients := [{ id := "a", status := "Active" }], activeClientId := "a" }
    "a" 5000 (by decide) (by decide)).2.2.1

/-- C4: one Measurement Window step. The first frame (sentinel
`windowStartMs = 0`) starts the window at its own timestamp and counts from
zero; every frame is counted and stamps the last-frame time; and exactly when
`t - windowStartMs ≥ 1000` the measured rate
`round(framesInWindow * 1000 / (t - windowStartMs))` is published (with
`framesInWindow` already including the current frame, as in spec steps 2-3)
and the window resets to `windowStartMs = t`, `framesInWindow = 0`; otherwise
the published value is held. Timestamps are wall-clock milliseconds; the code
replaces a zero timestamp by the current wall clock, so `0 < t`. -/
theorem c4_measurement_window_step (e : ClientEntry) (t : Int) (ht : 0 < t) :
    ((recordFrameEntry e t).lastFrameTsMs = t) ∧
    (e.windowStartMs = 0 →
      (recordFrameEntry e t).windowStartMs = t ∧
      (recordFrameEntry e t).framesInWindow = 1 ∧
      (recordFrameEntry e t).measuredFps = e.measuredFps) ∧
    (e.windowStartMs ≠ 0 → t - e.windowStartMs < 1000 →
      (recordFrameEntry e t).framesInWindow = e.framesInWindow + 1 ∧
      (recordFrameEntry e t).windowStartMs = e.windowStartMs ∧
      (recordFrameEntry e t).measuredFps = e.measuredFps) ∧
    (e.windowStartMs ≠ 0 → 1000 ≤ t - e.windowStartMs →
      (recordFrameEntry e t).measuredFps =
        roundHalfUp ((e.framesInWindow + 1) * 1000) (t - e.windowStartMs) ∧
      (recordFrameEntry e t).windowStartMs = t ∧
      (recordFrameEntry e t).framesInWindow = 0) := by
  have _ht := ht
  unfold recordFrameEntry
  by_cases h0 : e.windowStartMs = 0
  · rw [if_pos h0]
    dsimp only
    rw [if_neg (by omega : ¬ (1000 : Int) ≤ t - t)]
    refine ⟨rfl, fun _ => ⟨rfl, rfl, rfl⟩, ?_, ?_⟩
    · intro h _; exact absurd h0 h
    · intro h _; exact absurd h0 h
  · rw [if_neg h0]
    by_cases hel : (1000 : Int) ≤ t - e.windowStartMs
    · rw [if_pos hel]
      exact ⟨rfl, fun h => absurd h h0, fun _ h => absurd hel (by omega),
        fun _ _ => ⟨rfl, rfl, rfl⟩⟩
    · rw [if_neg hel]
      exact ⟨rfl, fun h => absurd h h0, fun _ _ => ⟨rfl, rfl, rfl⟩,
        fun _ h => absurd h hel⟩

/-- Witness for C4: a window rollover at `t = 1500` from a window opened at
`t = 100` publishes a value. -/
theorem c4_measurement_window_step_witness :
    (recordFrameEntry
        { id := "a", status := "Active", framesInWindow := 41, windowStartMs := 100 }
        1500).measuredFps =
      roundHalfUp ((41 + 1) * 1000) (1500 - 100) :=
  ((c4_measurement_window_step
      { id := "a", status := "Active", framesInWindow := 41, windowStartMs := 100 }
      1500 (by decide)).2.2.2 (by decide) (by decide)).1

theorem idCfg_setClientStatus (cl : List ClientEntry) (cid st : String) :
    (setClientStatus cl cid st).map (fun e => (e.id, e.configuredFps)) =
      cl.map (fun e => (e.id, e.configuredFps)) := by
  induction cl with
  | nil => rfl
  | cons e rest ih =>
      by_cases h : e.id = cid
      · simp [setClientStatus, h]
      · simp [setClientStatus, h, ih]

/-- C3 (amended): `setActiveClient` with an id that is not in the registry is
a no-op only when that id already equals the active reference; otherwise it
demotes the previous active client (if any) to `Connected`, installs the
unknown id as the Active-Client Reference, emits a send-failure (or
no-active-client, for the empty id) notification followed by
`ClientBecameActive`, and leaves the configured and current frame rate and
every row's configured rate unchanged. -/
theorem c3_set_active_unknown_amended (b : Bridge) (cid : String)
    (habs : indexOfClient b.clients cid = none) :
    (b.activeClientId = cid → b.setActiveClient cid = b) ∧
    (b.activeClientId ≠ cid →
      ((b.setActiveClient cid).activeClientId = cid ∧
       (b.setActiveClient cid).currentFps = b.currentFps ∧
       (b.setActiveClient cid).configuredFps = b.configuredFps ∧
       (b.setActiveClient cid).clients.map (fun e => (e.id, e.configuredFps)) =
         b.clients.map (fun e => (e.id, e.configuredFps)) ∧
       (∀ e ∈ b.clients, e.id ≠ b.activeClientId → e ∈ (b.setActiveClient cid).clients) ∧
       ((b.setActiveClient cid).clients =
         if b.activeClientId = "" then b.clients
         else setClientStatus b.clients b.activeClientId "Connected") ∧
       (b.setActiveClient cid).events =
         b.events ++
           [(if cid = "" then BridgeEvent.fpsFailedNoClient else BridgeEvent.fpsSendError),
            BridgeEvent.clientBecameActive cid])) := by
  have habs' : ∀ e ∈ b.clients, e.id ≠ cid := (indexOfClient_eq_none_iff _ _).mp habs
  constructor
  · intro h
    unfold Bridge.setActiveClient
    rw [if_pos h]
  · intro hne
    unfold Bridge.setActiveClient
    rw [if_neg hne]
    dsimp only
    set dl : List ClientEntry :=
      if b.activeClientId = "" then b.clients
      else setClientStatus b.clients b.activeClientId "Connected" with hdl
    have hids_dl : clientIds dl = clientIds b.clients := by
      rw [hdl]
      split
      · rfl
      · exact clientIds_setClientStatus _ _ _
    have habs_dl : ∀ e ∈ dl, e.id ≠ cid := by
      intro e he hc
      have hm : cid ∈ clientIds dl := mem_clientIds.mpr ⟨e, he, hc⟩
      rw [hids_dl] at hm
      rcases mem_clientIds.mp hm with ⟨e2, he2, hid2⟩
      exact habs' e2 he2 hid2
    have habs_dl2 : indexOfClient dl cid = none :=
      (indexOfClient_eq_none_iff _ _).mpr habs_dl
    rw [setClientStatus_of_absent dl cid "Active" habs_dl]
    unfold Bridge.setFps
    by_cases hc0 : cid = ""
    · rw [if_pos hc0]
      refine ⟨rfl, rfl, rfl, ?_, ?_, rfl, ?_⟩
      · rw [hdl]
        split
        · rfl
        · exact idCfg_setClientStatus _ _ _
      · intro e he hne2
        rw [hdl]
        split
        · exact he
        · exact mem_setClientStatus_of_ne he hne2
      · rw [if_pos hc0, List.append_assoc]
        rfl
    · have hfalse : ¬ ((indexOfClient dl cid).isSome = true) := by
        rw [habs_dl2]; simp
      rw [if_neg hc0, if_neg hfalse]
      refine ⟨rfl, rfl, rfl, ?_, ?_, rfl, ?_⟩
      · rw [hdl]
        split
        · rfl
        · exact idCfg_setClientStatus _ _ _
      · intro e he hne2
        rw [hdl]
        split
        · exact he
        · exact mem_setClientStatus_of_ne he hne2
      · rw [if_neg hc0, List.append_assoc]
        rfl

/-- Registry holding one active client `"a"`: the concrete state at which the
original C3 claim fails. -/
def bridgeA : Bridge :=
  { initBridge 0 with
      clients := [{ id := "a", status := "Active" }], activeClientId := "a" }

/-- C3 (counterexample): calling `setActiveClient` with the unknown id `"g"`
on a registry whose only client `"a"` is active does not leave the state
unchanged — the Active-Client Reference becomes `"g"` and client `"a"` is
demoted to `Connected`. -/
theorem c3_set_active_unknown_counterexample :
    indexOfClient bridgeA.clients "g" = none ∧
    bridgeA.activeClientId = "a" ∧
    (bridgeA.setActiveClient "g").activeClientId = "g" ∧
    (bridgeA.setActiveClient "g").clients.map (fun e => (e.id, e.status)) =
      [("a", "Connected")] := by
  refine ⟨?_, rfl, ?_, ?_⟩ <;> rfl

/-- Witness for the amended C3 at the concrete registry `bridgeA`. -/
theorem c3_set_active_unknown_amended_witness :
    (bridgeA.setActiveClient "g").events =
      bridgeA.events ++
        [(if "g" = "" then BridgeEvent.fpsFailedNoClient else BridgeEvent.fpsSendError),
         BridgeEvent.clientBecameActive "g"] :=
  ((c3_set_active_unknown_amended bridgeA "g" rfl).2
    (by decide)).2.2.2.2.2.2

/-- C5: the backoff schedule is deterministic and takes exactly the values
`1, 2, 4, 8, 16, 30, 30, 30, 30` seconds on attempts `0..8`. -/
theorem c5_backoff_schedule :
    (∀ a1 a2 : Nat, a1 = a2 → backoff a1 = backoff a2) ∧
    [backoff 0, backoff 1, backoff 2, backoff 3, backoff 4, backoff 5, backoff 6,
      backoff 7, backoff 8] = [1, 2, 4, 8, 16, 30, 30, 30, 30] :=
  ⟨fun _ _ h => congrArg backoff h, by decide⟩

/-- Witness for C5's determinism clause at attempt 4. -/
theorem c5_backoff_schedule_witness : backoff 4 = backoff 4 :=
  c5_backoff_schedule.1 4 4 rfl

/-- C6: the first byte of a non-empty frame dispatches it — `0x01` sends the
remaining bytes to the Control Message parser; `0x00` passes the remaining
bytes through as data payload; any other byte passes the whole frame through
as data payload, and in either data case no control parse is attempted. -/
theorem c6_wire_discriminator (parseOk jpegOk : List Nat → Bool) (b0 : Nat)
    (rest : List Nat) :
    (b0 = 1 →
      onBinaryMessageReceived parseOk jpegOk (b0 :: rest) = .controlParsed rest ∨
      onBinaryMessageReceived parseOk jpegOk (b0 :: rest) = .controlParseFailed rest) ∧
    (b0 = 0 →
      onBinaryMessageReceived parseOk jpegOk (b0 :: rest) = .dataFrame rest ∨
      onBinaryMessageReceived parseOk jpegOk (b0 :: rest) = .dataDecodeFailed rest) ∧
    (b0 ≠ 1 →
      (onBinaryMessageReceived parseOk jpegOk (b0 :: rest)).isControl = false) ∧
    (b0 ≠ 1 → b0 ≠ 0 →
      onBinaryMessageReceived parseOk jpegOk (b0 :: rest) = .dataFrame (b0 :: rest) ∨
      onBinaryMessageReceived parseOk jpegOk (b0 :: rest) =
        .dataDecodeFailed (b0 :: rest)) := by
  refine ⟨?_, ?_, ?_, ?_⟩
  · intro h
    subst h
    by_cases hp : parseOk rest
    · left; simp [onBinaryMessageReceived, hp]
    · right; simp [onBinaryMessageReceived, hp]
  · intro h
    subst h
    by_cases hj : jpegOk rest
    · left; simp [onBinaryMessageReceived, hj]
    · right; simp [onBinaryMessageReceived, hj]
  · intro h
    simp only [onBinaryMessageReceived]
    rw [if_neg h]
    split <;> split <;> rfl
  · intro h1 h0
    by_cases hj : jpegOk (b0 :: rest)
    · left; simp [onBinaryMessageReceived, h1, h0, hj]
    · right; simp [onBinaryMessageReceived, h1, h0, hj]

/-- Witness for C6: a frame led by byte 7 is never control-parsed. -/
theorem c6_wire_discriminator_witness :
    (onBinaryMessageReceived (fun _ => true) (fun _ => true) (7 :: [9])).isControl
      = false :=
  (c6_wire_discriminator (fun _ => true) (fun _ => true) 7 [9]).2.2.1 (by decide)

/-- C7 (amended): a received frame is discarded exactly when it is empty, or
is a control frame (first byte `0x01`) whose remainder fails the Control
Message parse, or is a data frame whose payload fails image (JPEG) decoding;
in each case the connection state is untouched. -/
theorem c7_drop_conditions_amended (parseOk jpegOk : List Nat → Bool)
    (msg : List Nat) :
    (onBinaryMessageReceived parseOk jpegOk msg).isDropped = true ↔
      (msg = [] ∨
       (∃ rest, msg = 1 :: rest ∧ parseOk rest = false) ∨
       (∃ b0 rest, msg = b0 :: rest ∧ b0 ≠ 1 ∧
          jpegOk (if b0 = 0 then rest else b0 :: rest) = false)) := by
  cases msg with
  | nil => simp [onBinaryMessageReceived, RxResult.isDropped]
  | cons b0 rest =>
      by_cases h1 : b0 = 1
      · subst h1
        by_cases hp : parseOk rest
        · simp [onBinaryMessageReceived, RxResult.isDropped, hp]
        · simp [onBinaryMessageReceived, RxResult.isDropped,
            Bool.eq_false_iff.mpr hp]
      · by_cases hj : jpegOk (if b0 = 0 then rest else b0 :: rest)
        · simp [onBinaryMessageReceived, RxResult.isDropped, h1, hj]
        · constructor
          · intro _
            exact Or.inr (Or.inr ⟨b0, rest, rfl, h1, Bool.eq_false_iff.mpr hj⟩)
          · intro _
            simp [onBinaryMessageReceived, RxResult.isDropped, h1,
              Bool.eq_false_iff.mpr hj]

/-- C7 (counterexample): even with parsers that always succeed, the empty
frame — which is not a control frame — is discarded, and so is a `0x00` data
frame whose payload the image decoder rejects. -/
theorem c7_drop_conditions_counterexample :
    (onBinaryMessageReceived (fun _ => true) (fun _ => true) []).isDropped = true ∧
    ([] : List Nat).head? ≠ some 1 ∧
    (onBinaryMessageReceived (fun _ => true) (fun _ => false) [0, 7]).isDropped
      = true ∧
    ((0 : Nat) :: [7]).head? ≠ some 1 := by
  decide

/-! ### Teardown accounting for the connection state machine -/

/-- Teardown bookkeeping invariant: each resource is freed once counting the
live allocation, and the reconnect-loop counter tracks the single-flight
flag. -/
def TdInv (s : WSClientState) : Prop :=
  s.wsFrees + (if s.wsAlive then 1 else 0) = 1 ∧
  s.iocFrees + (if s.iocAlive then 1 else 0) = 1 ∧
  s.reconnectLoopsStarted = (if s.reconnecting then 1 else 0)

theorem tdInv_cleanup {s : WSClientState} (h : TdInv s) (c : Bool) :
    TdInv (cleanupConnection s c) := by
  rcases s with ⟨run, rec, ws, ioc, thr, wf, icf, dn, rl⟩
  obtain ⟨h1, h2, h3⟩ := h
  cases rec <;> cases ws <;> cases ioc <;> cases thr <;> cases c <;>
    simp_all [cleanupConnection, TdInv]

theorem cleanup_notices (s : WSClientState) (c : Bool) :
    (cleanupConnection s c).disconnectNotices = s.disconnectNotices + 1 := by
  rcases s with ⟨run, rec, ws, ioc, thr, wf, icf, dn, rl⟩
  cases rec <;> cases ws <;> cases ioc <;> cases thr <;> cases c <;>
    simp [cleanupConnection]

theorem cleanup_reconnecting (s : WSClientState) (c : Bool) :
    (cleanupConnection s c).reconnecting = true := by
  rcases s with ⟨run, rec, ws, ioc, thr, wf, icf, dn, rl⟩
  cases rec <;> cases ws <;> cases ioc <;> cases thr <;> cases c <;>
    simp [cleanupConnection]

theorem cleanup_frees_nonio (s : WSClientState) :
    (cleanupConnection s false).wsAlive = false ∧
    (cleanupConnection s false).iocAlive = false := by
  rcases s with ⟨run, rec, ws, ioc, thr, wf, icf, dn, rl⟩
  cases rec <;> cases ws <;> cases ioc <;> cases thr <;>
    simp [cleanupConnection]

theorem cleanup_dead_stays_dead (s : WSClientState) (c : Bool) :
    (s.wsAlive = false → (cleanupConnection s c).wsAlive = false) ∧
    (s.iocAlive = false → (cleanupConnection s c).iocAlive = false) := by
  rcases s with ⟨run, rec, ws, ioc, thr, wf, icf, dn, rl⟩
  cases rec <;> cases ws <;> cases ioc <;> cases thr <;> cases c <;>
    simp [cleanupConnection]

theorem cleanupSeq_inv :
    ∀ (ctxs : List Bool) (s : WSClientState), TdInv s → TdInv (cleanupSeq s ctxs) := by
  intro ctxs
  induction ctxs with
  | nil => intro s h; exact h
  | cons c cs ih => intro s h; exact ih (cleanupConnection s c) (tdInv_cleanup h c)

theorem cleanupSeq_notices :
    ∀ (ctxs : List Bool) (s : WSClientState),
      (cleanupSeq s ctxs).disconnectNotices = s.disconnectNotices + ctxs.length := by
  intro ctxs
  induction ctxs with
  | nil => intro s; rfl
  | cons c cs ih =>
      intro s
      show (cleanupSeq (cleanupConnection s c) cs).disconnectNotices = _
      rw [ih (cleanupConnection s c), cleanup_notices]
      simp [List.length_cons]
      omega

theorem cleanupSeq_reconnecting_mono :
    ∀ (ctxs : List Bool) (s : WSClientState), s.reconnecting = true →
      (cleanupSeq s ctxs).reconnecting = true := by
  intro ctxs
  induction ctxs with
  | nil => intro s h; exact h
  | cons c cs ih =>
      intro s _
      exact ih (cleanupConnection s c) (cleanup_reconnecting s c)

theorem cleanupSeq_reconnecting :
    ∀ (ctxs : List Bool) (s : WSClientState), ctxs ≠ [] →
      (cleanupSeq s ctxs).reconnecting = true := by
  intro ctxs
  cases ctxs with
  | nil => intro s h; exact absurd rfl h
  | cons c cs =>
      intro s _
      exact cleanupSeq_reconnecting_mono cs _ (cleanup_reconnecting s c)

theorem cleanupSeq_dead_stays_dead :
    ∀ (ctxs : List Bool) (s : WSClientState),
      (s.wsAlive = false → (cleanupSeq s ctxs).wsAlive = false) ∧
      (s.iocAlive = false → (cleanupSeq s ctxs).iocAlive = false) := by
  intro ctxs
  induction ctxs with
  | nil => intro s; exact ⟨fun h => h, fun h => h⟩
  | cons c cs ih =>
      intro s
      constructor
      · intro h
        exact (ih (cleanupConnection s c)).1 ((cleanup_dead_stays_dead s c).1 h)
      · intro h
        exact (ih (cleanupConnection s c)).2 ((cleanup_dead_stays_dead s c).2 h)

theorem cleanupSeq_false_mem :
    ∀ (ctxs : List Bool) (s : WSClientState), false ∈ ctxs →
      (cleanupSeq s ctxs).wsAlive = false ∧ (cleanupSeq s ctxs).iocAlive = false := by
  intro ctxs
  induction ctxs with
  | nil => intro s h; cases h
  | cons c cs ih =>
      intro s hmem
      by_cases hcs : false ∈ cs
      · exact ih (cleanupConnection s c) hcs
      · have hc : c = false := by
          rcases List.mem_cons.mp hmem with h | h
          · exact h.symm
          · exact absurd h hcs
        subst hc
        constructor
        · exact (cleanupSeq_dead_stays_dead cs _).1 (cleanup_frees_nonio s).1
        · exact (cleanupSeq_dead_stays_dead cs _).2 (cleanup_frees_nonio s).2

/-- C8 (amended): `connect()` on an already-running client returns success
with no state change; on a non-running client a handshake timeout or failure
makes it return failure with the connection fully torn down — but the
teardown it performs notifies "disconnected" and does launch the reconnect
loop when none is running, so a failed `connect()` does schedule a
reconnection attempt (the original claim's "schedules no reconnection" fails
on the code). -/
theorem c8_connect_amended (s : WSClientState) (o : HsOutcome) :
    (s.running = true → connectToServer s o = (true, s)) ∧
    (s.running = false → o = HsOutcome.timeout ∨ o = HsOutcome.hsFailure →
      ((connectToServer s o).1 = false ∧
       (connectToServer s o).2.running = false ∧
       (connectToServer s o).2.wsAlive = false ∧
       (connectToServer s o).2.iocAlive = false ∧
       (connectToServer s o).2.ioThreadAlive = false ∧
       (connectToServer s o).2.reconnecting = true ∧
       (s.reconnecting = false →
         (connectToServer s o).2.reconnectLoopsStarted =
           s.reconnectLoopsStarted + 1) ∧
       (s.reconnecting = true →
         (connectToServer s o).2.reconnectLoopsStarted =
           s.reconnectLoopsStarted))) := by
  constructor
  · intro h
    unfold connectToServer
    rw [if_pos h]
  · intro hr ho
    rcases s with ⟨run, rec, ws, ioc, thr, wf, icf, dn, rl⟩
    have hrun : run = false := hr
    subst hrun
    rcases ho with rfl | rfl <;>
      cases rec <;> cases ws <;> cases ioc <;> cases thr <;>
        simp [connectToServer, cleanupConnection]

/-- Witness for the amended C8: a handshake timeout on a fresh client. -/
theorem c8_connect_amended_witness :
    (connectToServer initialWSClientState HsOutcome.timeout).1 = false :=
  ((c8_connect_amended initialWSClientState HsOutcome.timeout).2 rfl
    (Or.inl rfl)).1

/-- C8 (counterexample): a handshake-timeout `connect()` call on a fresh,
idle client returns failure but launches a reconnect loop (and delivers
disconnect notifications), contradicting "this call itself schedules no
reconnection attempt". -/
theorem c8_connect_counterexample :
    (connectToServer initialWSClientState HsOutcome.timeout).1 = false ∧
    initialWSClientState.reconnectLoopsStarted = 0 ∧
    (connectToServer initialWSClientState HsOutcome.timeout).2.reconnectLoopsStarted
      = 1 := by
  decide

/-- C9 (amended): over any serialized sequence of `cleanupConnection`
invocations from the quiescent connected state, the websocket and
`io_context` are each freed at most once — exactly once as soon as one
invocation runs off the IO thread — and at most one reconnect loop is
launched; but the "disconnected" notification is delivered once per
invocation (not exactly once per teardown): re-entered teardown notifies
again. -/
theorem c9_teardown_amended (ctxs : List Bool) :
    (cleanupSeq connectedState ctxs).wsFrees ≤ 1 ∧
    (cleanupSeq connectedState ctxs).iocFrees ≤ 1 ∧
    (false ∈ ctxs →
      (cleanupSeq connectedState ctxs).wsFrees = 1 ∧
      (cleanupSeq connectedState ctxs).iocFrees = 1) ∧
    (cleanupSeq connectedState ctxs).reconnectLoopsStarted ≤ 1 ∧
    (ctxs ≠ [] → (cleanupSeq connectedState ctxs).reconnectLoopsStarted = 1) ∧
    (cleanupSeq connectedState ctxs).disconnectNotices = ctxs.length := by
  have hInv : TdInv (cleanupSeq connectedState ctxs) :=
    cleanupSeq_inv ctxs connectedState (by constructor <;> simp [connectedState])
  obtain ⟨h1, h2, h3⟩ := hInv
  refine ⟨?_, ?_, ?_, ?_, ?_, ?_⟩
  · split at h1 <;> omega
  · split at h2 <;> omega
  · intro hmem
    obtain ⟨hws, hioc⟩ := cleanupSeq_false_mem ctxs connectedState hmem
    rw [hws] at h1
    rw [hioc] at h2
    simp at h1 h2
    exact ⟨h1, h2⟩
  · split at h3 <;> omega
  · intro hne
    rw [cleanupSeq_reconnecting ctxs connectedState hne] at h3
    simpa using h3
  · rw [cleanupSeq_notices ctxs connectedState]
    simp [connectedState]

/-- Witness for the amended C9 at the code's designed teardown path: a
cleanup on the IO thread followed by the deferred helper's cleanup off it. -/
theorem c9_teardown_amended_witness :
    (cleanupSeq connectedState [true, false]).wsFrees = 1 ∧
    (cleanupSeq connectedState [true, false]).iocFrees = 1 :=
  (c9_teardown_amended [true, false]).2.2.1 (by decide)

/-- C9 (counterexample): on the designed teardown path — teardown entered on
the IO thread (read error), then re-entered by the deferred helper from a
neutral thread — the "disconnected" notification is delivered twice, not
exactly once, even though the resources are freed exactly once. -/
theorem c9_teardown_counterexample :
    (cleanupSeq connectedState [true, false]).disconnectNotices = 2 ∧
    (cleanupSeq connectedState [true, false]).wsFrees = 1 := by
  decide

end ImageSocket
